import Mathlib

/-!
Shallow embedding of the gabagool navigation core (package `router`:
`router.go`, `stack.go`) and of the directional-input repeat handler
(`internal/directional.go`), with theorems checking the specification
claims against it.

Go machine integers (`type Screen int`) are modelled as `Int`; the
type-erased `any` payloads are modelled by a type parameter `α`; Go
errors by `Option`/`Except` with an abstract error payload type `ε`;
`time.Time`/`time.Duration` by `Int` nanosecond counts.  The Go run
loop may iterate forever, so it is unrolled with explicit fuel.
-/

namespace Gabagool

/-- `type Screen int` — a type-safe identifier for screens. -/
abbrev Screen := Int

/-- `const ScreenExit Screen = -1` — the reserved exit identifier. -/
def ScreenExit : Screen := -1

/-- `type StackEntry struct { Screen Screen; Input any; Resume any }`. -/
structure StackEntry (α : Type) where
  screen : Screen
  input : α
  resume : α
deriving Repr, DecidableEq

/-- `type Stack struct { entries []StackEntry }`. -/
structure Stack (α : Type) where
  entries : List (StackEntry α)
deriving Repr, DecidableEq

/-- `NewStack()` — a new empty navigation stack. -/
def NewStack (α : Type) : Stack α := ⟨[]⟩

/-- `func (s *Stack) Push(screen Screen, input any, resume any)` —
appends a `StackEntry` to the end of `entries`. -/
def Stack.push (s : Stack α) (screen : Screen) (input : α) (resume : α) :
    Stack α :=
  ⟨s.entries ++ [⟨screen, input, resume⟩]⟩

/-- `func (s *Stack) Pop() *StackEntry` — if `len(entries) == 0` return
`nil`, else remove and return the last element.  The Go method mutates
the receiver; here it returns the popped entry together with the new
stack state. -/
def Stack.pop (s : Stack α) : Option (StackEntry α) × Stack α :=
  if s.entries.length = 0 then (none, s)
  else (s.entries.getLast?, ⟨s.entries.dropLast⟩)

/-- `func (s *Stack) Peek() *StackEntry`. -/
def Stack.peek (s : Stack α) : Option (StackEntry α) :=
  if s.entries.length = 0 then none else s.entries.getLast?

/-- `func (s *Stack) IsEmpty() bool` — `len(s.entries) == 0`. -/
def Stack.isEmpty (s : Stack α) : Bool := s.entries.length = 0

/-- `func (s *Stack) Len() int`. -/
def Stack.len (s : Stack α) : Nat := s.entries.length

/-- `func (s *Stack) Clear()` — `s.entries = s.entries[:0]`. -/
def Stack.clear (_ : Stack α) : Stack α := ⟨[]⟩

/-- Push every entry of `l` in order (left to right). -/
def Stack.pushList (s : Stack α) (l : List (StackEntry α)) : Stack α :=
  l.foldl (fun t e => t.push e.screen e.input e.resume) s

/-- Pop `n` times, returning the popped entries in pop order together
with the final stack state.  A pop of an empty stack contributes no
entry, exactly as `Pop` returns `nil` there. -/
def Stack.popN (s : Stack α) : Nat → List (StackEntry α) × Stack α
  | 0 => ([], s)
  | n + 1 =>
    match s.pop with
    | (some e, s1) =>
      let rest := s1.popN n
      (e :: rest.1, rest.2)
    | (none, s1) => ([], s1)

theorem Stack.pushList_entries (s : Stack α) (l : List (StackEntry α)) :
    s.pushList l = ⟨s.entries ++ l⟩ := by
  induction l generalizing s with
  | nil => simp [Stack.pushList]
  | cons e l ih =>
    simp only [Stack.pushList, List.foldl_cons] at ih ⊢
    rw [ih]
    simp [Stack.push]

theorem Stack.pop_concat (b : List (StackEntry α)) (e : StackEntry α) :
    Stack.pop ⟨b ++ [e]⟩ = (some e, ⟨b⟩) := by
  simp [Stack.pop]

theorem Stack.popN_append (l b : List (StackEntry α)) :
    Stack.popN ⟨b ++ l⟩ l.length = (l.reverse, ⟨b⟩) := by
  induction l using List.reverseRecOn generalizing b with
  | nil => simp [Stack.popN]
  | append_singleton xs x ih =>
    have hlen : (xs ++ [x]).length = xs.length + 1 := by simp
    rw [hlen]
    show Stack.popN ⟨b ++ (xs ++ [x])⟩ (xs.length + 1) = _
    rw [← List.append_assoc]
    simp only [Stack.popN, Stack.pop_concat]
    rw [ih b]
    simp

/-- C3: for every sequence of entries `e1, …, en` pushed in that order
onto an initially empty navigation stack, `n` pops return the entries in
the order `en, …, e1`, and after the final pop the stack is empty
(`IsEmpty()` is `true` and `Len()` is `0`). -/
theorem stack_lifo (α : Type) (l : List (StackEntry α)) :
    ((NewStack α).pushList l).popN l.length = (l.reverse, NewStack α)
    ∧ (((NewStack α).pushList l).popN l.length).2.isEmpty = true
    ∧ (((NewStack α).pushList l).popN l.length).2.len = 0 := by
  have h : ((NewStack α).pushList l).popN l.length = (l.reverse, NewStack α) := by
    rw [Stack.pushList_entries]
    show Stack.popN ⟨[] ++ l⟩ l.length = _
    rw [Stack.popN_append]
    rfl
  refine ⟨h, ?_, ?_⟩ <;> rw [h] <;> rfl

/-- C4: pushing `(s, i, r)` and then popping that frame, with any
balanced block of `l.length` pushes followed by `l.length` pops in
between, yields an entry whose `Screen`, `Input` and `Resume` fields are
exactly `s`, `i` and `r`, and restores the stack below the frame. -/
theorem stack_push_pop_round_trip (s : Stack α) (sc : Screen) (i r : α)
    (l : List (StackEntry α)) :
    (((s.push sc i r).pushList l).popN l.length).2.pop
      = (some ⟨sc, i, r⟩, s) := by
  rw [Stack.pushList_entries, Stack.popN_append]
  show Stack.pop ⟨s.entries ++ [⟨sc, i, r⟩]⟩ = _
  rw [Stack.pop_concat]

/-- C6: `Pop` on an empty navigation stack returns the no-entry value
(`nil`) and leaves the stack unchanged; `Pop` is a total function over
every stack state (it is a Lean `def`, defined on all inputs, and never
panics). -/
theorem pop_on_empty (s : Stack α) (h : s.isEmpty = true) :
    s.pop = (none, s) := by
  have hl : s.entries.length = 0 := by
    simpa [Stack.isEmpty] using h
  simp [Stack.pop, hl]

/-- Witness for C6 at a concrete empty stack of `Nat` payloads. -/
theorem pop_on_empty_witness :
    (NewStack Nat).isEmpty = true
    ∧ (NewStack Nat).pop = (none, NewStack Nat) :=
  ⟨rfl, pop_on_empty (NewStack Nat) rfl⟩

/-- `type ScreenFunc func(input any) (result any, err error)` — a screen
unit either succeeds with a result payload or fails with an error. -/
abbrev ScreenFunc (α ε : Type) := α → Except ε α

/-- `type TransitionFunc func(from Screen, result any, stack *Stack)
(next Screen, input any)` — the Go function mutates the stack through
the pointer, so here it also returns the new stack state. -/
abbrev TransitionFunc (α : Type) := Screen → α → Stack α → Screen × α × Stack α

/-- The errors `Router.Run` can return: `"router: no transition
function set"`, `"router: screen %d not registered"` and `"router:
screen %d error: %w"` (the last wraps the screen error value). -/
inductive RouterError (ε : Type) where
  | noTransition : RouterError ε
  | screenNotRegistered (s : Screen) : RouterError ε
  | screenFailed (s : Screen) (e : ε) : RouterError ε
deriving Repr, DecidableEq

/-- `type Router struct { screens map[Screen]ScreenFunc; transition
TransitionFunc; stack *Stack }` — the map is modelled as a function to
`Option`, the possibly-nil transition field as an `Option`. -/
structure Router (α ε : Type) where
  screens : Screen → Option (ScreenFunc α ε)
  transition : Option (TransitionFunc α)
  stack : Stack α

/-- `func New() *Router` — empty registry, no transition, empty stack. -/
def Router.new (α ε : Type) : Router α ε :=
  ⟨fun _ => none, none, NewStack α⟩

/-- `func (r *Router) Register(screen Screen, fn ScreenFunc) *Router` —
`r.screens[screen] = fn`: inserts or replaces, returns the router. -/
def Router.register (r : Router α ε) (screen : Screen) (fn : ScreenFunc α ε) :
    Router α ε :=
  { r with screens := fun s => if s = screen then some fn else r.screens s }

/-- `func (r *Router) OnTransition(fn TransitionFunc) *Router`. -/
def Router.onTransition (r : Router α ε) (fn : TransitionFunc α) : Router α ε :=
  { r with transition := some fn }

/-- The outcome of `Run`: `ok` is the nil error, `err` a non-nil error.
`fuelExhausted` marks that the unrolling budget ran out before the Go
loop (which has no iteration limit) terminated. -/
inductive RunResult (ε : Type) where
  | ok : RunResult ε
  | err (e : RouterError ε) : RunResult ε
  | fuelExhausted : RunResult ε
deriving Repr, DecidableEq

/-- The `for` loop body of `Router.Run`, unrolled on fuel.  Besides the
outcome it records the trace of screen identifiers whose units were
invoked, in invocation order: lookup failure invokes nothing, any
resolved screen is invoked exactly once per iteration. -/
def runLoop (screens : Screen → Option (ScreenFunc α ε))
    (transition : TransitionFunc α) :
    Nat → Screen → α → Stack α → RunResult ε × List Screen
  | 0, _, _, _ => (.fuelExhausted, [])
  | fuel + 1, current, currentInput, stack =>
    match screens current with
    | none => (.err (.screenNotRegistered current), [])
    | some fn =>
      match fn currentInput with
      | .error e => (.err (.screenFailed current e), [current])
      | .ok result =>
        let t := transition current result stack
        if t.1 = ScreenExit then (.ok, [current])
        else
          let rest := runLoop screens transition fuel t.1 t.2.1 t.2.2
          (rest.1, current :: rest.2)

/-- `func (r *Router) Run(start Screen, input any) error` — checks the
transition function first, then enters the loop. -/
def Router.run (r : Router α ε) (fuel : Nat) (start : Screen) (input : α) :
    RunResult ε × List Screen :=
  match r.transition with
  | none => (.err .noTransition, [])
  | some tf => runLoop r.screens tf fuel start input r.stack

/-- A sample screen unit that succeeds with its input, for witnesses. -/
def idUnit : ScreenFunc Nat Unit := fun i => .ok i

/-- A sample screen unit that always fails, for witnesses. -/
def failUnit : ScreenFunc Nat Unit := fun _ => .error ()

/-- A sample transition function that always exits, for witnesses. -/
def exitTf : TransitionFunc Nat := fun _ _ st => (ScreenExit, 0, st)

/-- A sample registry holding `idUnit` at screen `0` only, for
witnesses. -/
def soloRegistry : Screen → Option (ScreenFunc Nat Unit) :=
  fun s => if s = 0 then some idUnit else none

/-- A sample registry holding `failUnit` at screen `0` only, for
witnesses. -/
def failRegistry : Screen → Option (ScreenFunc Nat Unit) :=
  fun s => if s = 0 then some failUnit else none

/-- C1: at any iteration of a `Run` call (any reachable loop state
`(current, input, stack)`), if the current screen resolves, its unit
succeeds, and the transition function returns the reserved exit
identifier as `next`, then the loop returns immediately with the nil
error, the only unit invoked from that point on is the current one, and
the conclusion does not depend on the `nextInput` component of the
transition result, which is therefore ignored. -/
theorem exit_terminates (screens : Screen → Option (ScreenFunc α ε))
    (tf : TransitionFunc α) (fuel : Nat) (current : Screen) (input : α)
    (stack : Stack α) (fn : ScreenFunc α ε) (result : α)
    (hfn : screens current = some fn) (hok : fn input = .ok result)
    (hexit : (tf current result stack).1 = ScreenExit) :
    runLoop screens tf (fuel + 1) current input stack = (.ok, [current])
    ∧ Router.run ⟨screens, some tf, stack⟩ (fuel + 1) current input
        = (.ok, [current]) := by
  have h1 : runLoop screens tf (fuel + 1) current input stack
      = (.ok, [current]) := by
    simp [runLoop, hfn, hok, hexit]
  exact ⟨h1, h1⟩

/-- Witness for C1: a single registered screen whose transition exits at
once; the run returns the nil error having invoked exactly screen 0. -/
theorem exit_terminates_witness :
    soloRegistry 0 = some idUnit
    ∧ idUnit 5 = .ok 5
    ∧ (exitTf 0 5 (NewStack Nat)).1 = ScreenExit
    ∧ runLoop soloRegistry exitTf 1 0 5 (NewStack Nat) = (.ok, [0]) :=
  ⟨rfl, rfl, rfl,
    (exit_terminates soloRegistry exitTf 0 0 5 (NewStack Nat) idUnit 5
      rfl rfl rfl).1⟩

/-- C5: whenever the currently executing screen unit returns a non-nil
error `e`, the loop terminates immediately with a non-nil error wrapping
`e` (and naming the failing screen); the conclusion holds for every
transition function `tf`, so the transition function is not consulted,
and the trace shows no unit runs after the failing one. -/
theorem screen_error_fatal (screens : Screen → Option (ScreenFunc α ε))
    (tf : TransitionFunc α) (fuel : Nat) (current : Screen) (input : α)
    (stack : Stack α) (fn : ScreenFunc α ε) (e : ε)
    (hfn : screens current = some fn) (herr : fn input = .error e) :
    runLoop screens tf (fuel + 1) current input stack
      = (.err (.screenFailed current e), [current])
    ∧ Router.run ⟨screens, some tf, stack⟩ (fuel + 1) current input
      = (.err (.screenFailed current e), [current]) := by
  have h1 : runLoop screens tf (fuel + 1) current input stack
      = (.err (.screenFailed current e), [current]) := by
    simp [runLoop, hfn, herr]
  exact ⟨h1, h1⟩

/-- Witness for C5: a failing unit at screen 0 aborts the run with the
wrapped error after exactly one invocation. -/
theorem screen_error_fatal_witness :
    failRegistry 0 = some failUnit
    ∧ failUnit 7 = .error ()
    ∧ runLoop failRegistry exitTf 3 0 7 (NewStack Nat)
        = (.err (.screenFailed 0 ()), [0]) :=
  ⟨rfl, rfl,
    (screen_error_fatal failRegistry exitTf 2 0 7 (NewStack Nat) failUnit ()
      rfl rfl).1⟩

/-- C2: configuration errors fail closed.  If no transition function has
been set, `Run` returns the no-transition error with zero unit
invocations, for every start screen.  If the start screen has no
registered unit, `Run` returns the not-registered error with zero unit
invocations.  And at any later iteration, an unresolved screen
terminates the loop with the not-registered error, invoking no further
unit; in every case the error surfaces to the caller of `Run`. -/
theorem config_error_fails_closed (α ε : Type) :
    (∀ (r : Router α ε) (fuel : Nat) (start : Screen) (input : α),
        r.transition = none →
        r.run fuel start input = (.err .noTransition, []))
    ∧ (∀ (r : Router α ε) (tf : TransitionFunc α) (fuel : Nat)
          (start : Screen) (input : α),
        r.transition = some tf → r.screens start = none →
        r.run (fuel + 1) start input
          = (.err (.screenNotRegistered start), []))
    ∧ (∀ (screens : Screen → Option (ScreenFunc α ε)) (tf : TransitionFunc α)
          (fuel : Nat) (current : Screen) (input : α) (stack : Stack α),
        screens current = none →
        runLoop screens tf (fuel + 1) current input stack
          = (.err (.screenNotRegistered current), [])) := by
  refine ⟨?_, ?_, ?_⟩
  · intro r fuel start input ht
    simp [Router.run, ht]
  · intro r tf fuel start input ht hs
    simp [Router.run, ht, runLoop, hs]
  · intro screens tf fuel current input stack hs
    simp [runLoop, hs]

/-- Witness for C2: a router with no transition function, a router whose
start screen is unregistered, and a loop state whose current screen is
unregistered, each at concrete inputs. -/
theorem config_error_fails_closed_witness :
    Router.run ⟨soloRegistry, none, NewStack Nat⟩ 4 0 9
      = (.err .noTransition, [])
    ∧ Router.run ⟨soloRegistry, some exitTf, NewStack Nat⟩ 4 3 9
      = (.err (.screenNotRegistered 3), [])
    ∧ runLoop soloRegistry exitTf 4 7 9 (NewStack Nat)
      = (.err (.screenNotRegistered 7), []) :=
  ⟨(config_error_fails_closed Nat Unit).1
      ⟨soloRegistry, none, NewStack Nat⟩ 4 0 9 rfl,
    (config_error_fails_closed Nat Unit).2.1
      ⟨soloRegistry, some exitTf, NewStack Nat⟩ exitTf 3 3 9 rfl rfl,
    (config_error_fails_closed Nat Unit).2.2
      soloRegistry exitTf 3 7 9 (NewStack Nat) rfl⟩

/-- C7: registering `u1` for a screen identifier and then `u2` for the
same identifier leaves the registry mapping that identifier to `u2`; the
whole registry equals the one obtained by registering only `u2`, so any
subsequent run behaves as if only `u2` were registered (it invokes `u2`
and never `u1`).  `Register` is total and returns the router, so
re-registration produces no duplicate-registration error. -/
theorem register_last_write_wins (r : Router α ε) (id : Screen)
    (u1 u2 : ScreenFunc α ε) :
    ((r.register id u1).register id u2).screens id = some u2
    ∧ ((r.register id u1).register id u2).screens
        = (r.register id u2).screens
    ∧ ∀ (tf : TransitionFunc α) (fuel : Nat) (start : Screen) (input : α)
        (stack : Stack α),
        runLoop ((r.register id u1).register id u2).screens tf fuel
            start input stack
          = runLoop (r.register id u2).screens tf fuel start input stack := by
  have hmap : ((r.register id u1).register id u2).screens
      = (r.register id u2).screens := by
    funext s
    by_cases h : s = id <;> simp [Router.register, h]
  refine ⟨?_, hmap, ?_⟩
  · simp [Router.register]
  · intro tf fuel start input stack
    rw [hmap]

/-- C8: the reserved exit identifier is honored only when returned by
the transition function, never as a start screen.  Starting `Run` at
`ScreenExit` with no unit registered under `-1` yields the
not-registered configuration error, not immediate success; and if a unit
is registered under `-1`, that unit is invoked like any other screen
(the invocation trace begins with `ScreenExit`). -/
theorem exit_not_honored_as_start (screens : Screen → Option (ScreenFunc α ε))
    (tf : TransitionFunc α) (fuel : Nat) (input : α) (stack : Stack α) :
    (screens ScreenExit = none →
      Router.run ⟨screens, some tf, stack⟩ (fuel + 1) ScreenExit input
        = (.err (.screenNotRegistered ScreenExit), []))
    ∧ ∀ fn : ScreenFunc α ε, screens ScreenExit = some fn →
        (Router.run ⟨screens, some tf, stack⟩ (fuel + 1) ScreenExit
            input).2.head? = some ScreenExit := by
  constructor
  · intro h
    simp [Router.run, runLoop, h]
  · intro fn hfn
    cases hfi : fn input with
    | error e => simp [Router.run, runLoop, hfn, hfi]
    | ok result =>
      by_cases hx : (tf ScreenExit result stack).1 = ScreenExit <;>
        simp [Router.run, runLoop, hfn, hfi, hx]

/-- Witness for C8: with the empty-at-`-1` registry the start at
`ScreenExit` fails closed; after registering a unit under `-1` the same
start invokes that unit. -/
theorem exit_not_honored_as_start_witness :
    Router.run ⟨soloRegistry, some exitTf, NewStack Nat⟩ 2 ScreenExit 4
      = (.err (.screenNotRegistered ScreenExit), [])
    ∧ (Router.run ⟨fun s => if s = ScreenExit then some idUnit
          else soloRegistry s, some exitTf, NewStack Nat⟩ 2 ScreenExit
          4).2.head? = some ScreenExit :=
  ⟨(exit_not_honored_as_start soloRegistry exitTf 1 4 (NewStack Nat)).1 rfl,
    (exit_not_honored_as_start
      (fun s => if s = ScreenExit then some idUnit else soloRegistry s)
      exitTf 1 4 (NewStack Nat)).2 idUnit rfl⟩

/-- An observation event around a screen unit invocation: the loop
enters the unit (the shared counter of the spec is incremented) and, the
call being synchronous and blocking, leaves it before anything else
happens (the counter is decremented). -/
inductive ScreenEvent where
  | enter (s : Screen) : ScreenEvent
  | leave (s : Screen) : ScreenEvent
deriving Repr, DecidableEq

/-- The event trace of a run: each invocation in the loop trace
contributes an enter event immediately followed by its leave event,
because `fn(currentInput)` is a single blocking call with nothing
between its start and its return. -/
def invocationEvents : List Screen → List ScreenEvent
  | [] => []
  | s :: rest => .enter s :: .leave s :: invocationEvents rest

/-- The contribution of one event to the shared counter. -/
def eventDelta : ScreenEvent → Int
  | .enter _ => 1
  | .leave _ => -1

/-- The value of the shared counter after consuming a list of events,
starting from `0`. -/
def activeCount : List ScreenEvent → Int
  | [] => 0
  | e :: l => eventDelta e + activeCount l

theorem activeCount_take_bounds (trace : List Screen) :
    ∀ n : Nat, 0 ≤ activeCount ((invocationEvents trace).take n)
      ∧ activeCount ((invocationEvents trace).take n) ≤ 1 := by
  induction trace with
  | nil => intro n; simp [invocationEvents, activeCount]
  | cons s rest ih =>
    intro n
    match n with
    | 0 => simp [activeCount]
    | 1 => simp [invocationEvents, activeCount, eventDelta]
    | n + 2 =>
      have h := ih n
      simp only [invocationEvents, List.take_succ_cons, activeCount,
        eventDelta] at h ⊢
      omega

/-- C10: across one run, at most one screen unit is executing at any
time.  Formally, over the event trace of any run-loop execution (each
synchronous invocation bracketed by its enter and leave events), the
shared counter of the spec — incremented at enter, decremented at leave
— stays between `0` and `1` after every prefix, so screen invocations
are strictly sequential with no overlap. -/
theorem single_flight (screens : Screen → Option (ScreenFunc α ε))
    (tf : TransitionFunc α) (fuel : Nat) (current : Screen) (input : α)
    (stack : Stack α) (n : Nat) :
    0 ≤ activeCount ((invocationEvents
        (runLoop screens tf fuel current input stack).2).take n)
    ∧ activeCount ((invocationEvents
        (runLoop screens tf fuel current input stack).2).take n) ≤ 1 :=
  activeCount_take_bounds (runLoop screens tf fuel current input stack).2 n

/-- `type VirtualButton int` from the `constants` package: an `iota`
enumeration of 21 abstract input buttons (`VirtualButtonUnassigned`, the
four directional buttons, face, shoulder and system buttons).  The
`switch` in `SetHeld` distinguishes exactly `VirtualButtonUp`,
`VirtualButtonDown`, `VirtualButtonLeft` and `VirtualButtonRight`; every
other constant falls through to its default branch, so those values are
collapsed into the single constructor `other`. -/
inductive VirtualButton where
  | up : VirtualButton
  | down : VirtualButton
  | left : VirtualButton
  | right : VirtualButton
  | other : VirtualButton
deriving Repr, DecidableEq

/-- `type Direction int` with `DirectionNone, DirectionUp, …`. -/
inductive Direction where
  | none : Direction
  | up : Direction
  | down : Direction
  | left : Direction
  | right : Direction
deriving Repr, DecidableEq

/-- `type DirectionalInput struct { held struct{up, down, left, right
bool}; lastRepeatTime time.Time; repeatDelay, repeatInterval
time.Duration; hasRepeated bool }` — instants and durations are
nanosecond counts (`Int`); the current wall time is threaded explicitly
where the Go code calls `time.Now()`. -/
structure DirectionalInput where
  heldUp : Bool
  heldDown : Bool
  heldLeft : Bool
  heldRight : Bool
  lastRepeatTime : Int
  repeatDelay : Int
  repeatInterval : Int
  hasRepeated : Bool
deriving Repr, DecidableEq

/-- `NewDirectionalInputWithTiming(delay, interval)` called at instant
`now` (`lastRepeatTime: time.Now()`). -/
def NewDirectionalInputWithTiming (delay interval now : Int) :
    DirectionalInput :=
  ⟨false, false, false, false, now, delay, interval, false⟩

/-- `func (d *DirectionalInput) SetHeld(button, held) bool` — updates
the held flag for a directional button, clears `hasRepeated` when the
button is released, and reports whether the button was directional. -/
def DirectionalInput.setHeld (d : DirectionalInput) (button : VirtualButton)
    (held : Bool) : DirectionalInput × Bool :=
  match button with
  | .up =>
    ({ d with
        heldUp := held,
        hasRepeated := if held then d.hasRepeated else false }, true)
  | .down =>
    ({ d with
        heldDown := held,
        hasRepeated := if held then d.hasRepeated else false }, true)
  | .left =>
    ({ d with
        heldLeft := held,
        hasRepeated := if held then d.hasRepeated else false }, true)
  | .right =>
    ({ d with
        heldRight := held,
        hasRepeated := if held then d.hasRepeated else false }, true)
  | .other => (d, false)

/-- `func (d *DirectionalInput) IsHeld() bool`. -/
def DirectionalInput.isHeld (d : DirectionalInput) : Bool :=
  d.heldUp || d.heldDown || d.heldLeft || d.heldRight

/-- `func (d *DirectionalInput) HeldDirection() Direction` — priority
up, down, left, right. -/
def DirectionalInput.heldDirection (d : DirectionalInput) : Direction :=
  if d.heldUp then .up
  else if d.heldDown then .down
  else if d.heldLeft then .left
  else if d.heldRight then .right
  else .none

/-- `func (d *DirectionalInput) Update() Direction` at instant `now` —
while idle it refreshes `lastRepeatTime` and clears `hasRepeated`; while
held it fires the held direction once the threshold (the delay before
the first repeat, the interval afterwards) has elapsed since
`lastRepeatTime`, stamping the fire time. -/
def DirectionalInput.update (d : DirectionalInput) (now : Int) :
    DirectionalInput × Direction :=
  if d.isHeld = false then
    ({ d with lastRepeatTime := now, hasRepeated := false }, .none)
  else
    let timeSince := now - d.lastRepeatTime
    let threshold :=
      if d.hasRepeated = false then d.repeatDelay else d.repeatInterval
    if threshold ≤ timeSince then
      ({ d with lastRepeatTime := now, hasRepeated := true },
        d.heldDirection)
    else (d, .none)

/-- `func (d *DirectionalInput) Reset()` at instant `now`. -/
def DirectionalInput.resetState (d : DirectionalInput) (now : Int) :
    DirectionalInput :=
  { d with
      heldUp := false, heldDown := false, heldLeft := false,
      heldRight := false, hasRepeated := false, lastRepeatTime := now }

theorem heldDirection_ne_none (d : DirectionalInput)
    (h : d.isHeld = true) : d.heldDirection ≠ Direction.none := by
  cases hu : d.heldUp <;> cases hd : d.heldDown <;>
    cases hl : d.heldLeft <;> cases hr : d.heldRight <;>
    simp_all [DirectionalInput.isHeld, DirectionalInput.heldDirection]

theorem setHeld_true_timing (d : DirectionalInput) (b : VirtualButton) :
    (d.setHeld b true).1.hasRepeated = d.hasRepeated
    ∧ (d.setHeld b true).1.lastRepeatTime = d.lastRepeatTime
    ∧ (d.setHeld b true).1.repeatDelay = d.repeatDelay := by
  cases b <;> simp [DirectionalInput.setHeld]

theorem update_fire_before_first (d : DirectionalInput) (t : Int)
    (hheld : d.isHeld = true) (hrep : d.hasRepeated = false) :
    (d.update t).2 ≠ Direction.none ↔ d.repeatDelay ≤ t - d.lastRepeatTime := by
  by_cases hc : d.repeatDelay ≤ t - d.lastRepeatTime <;>
    simp [DirectionalInput.update, hheld, hrep, hc,
      heldDirection_ne_none d hheld]

theorem update_fire_steady (d : DirectionalInput) (t : Int)
    (hheld : d.isHeld = true) (hrep : d.hasRepeated = true) :
    (d.update t).2 ≠ Direction.none
      ↔ d.repeatInterval ≤ t - d.lastRepeatTime := by
  by_cases hc : d.repeatInterval ≤ t - d.lastRepeatTime <;>
    simp [DirectionalInput.update, hheld, hrep, hc,
      heldDirection_ne_none d hheld]

theorem update_idle (d : DirectionalInput) (t : Int)
    (hidle : d.isHeld = false) :
    d.update t
      = ({ d with lastRepeatTime := t, hasRepeated := false },
          Direction.none) := by
  simp [DirectionalInput.update, hidle]

/-- C9: the repeat contract of the directional-input handler.  (1) After
an idle frame at `t0` (which stamps the reference instant) and a press
of a directional button, the first repeat fires at an update at `t`
exactly when the configured repeat delay has elapsed since `t0`.
(2) Once a repeat has fired, the next repeat fires exactly when the
configured repeat interval has elapsed since `lastRepeatTime`, and (3)
every fire re-stamps `lastRepeatTime` with the fire instant (so the
interval is measured from the previous repeat) and yields the held
direction.  (4) With no direction held, an update returns no direction
and resets the state to idle (`hasRepeated` cleared, reference instant
refreshed), and (5) releasing a directional button clears `hasRepeated`
at once, so the next hold waits the full delay again. -/
theorem directional_repeat_contract :
    (∀ (d0 : DirectionalInput) (b : VirtualButton) (t0 t : Int),
        d0.isHeld = false →
        (((d0.update t0).1.setHeld b true).1.isHeld = true →
        ((((d0.update t0).1.setHeld b true).1.update t).2 ≠ Direction.none
            ↔ d0.repeatDelay ≤ t - t0)))
    ∧ (∀ (d : DirectionalInput) (t : Int),
        d.isHeld = true → d.hasRepeated = true →
        ((d.update t).2 ≠ Direction.none
          ↔ d.repeatInterval ≤ t - d.lastRepeatTime))
    ∧ (∀ (d : DirectionalInput) (t : Int),
        d.isHeld = true → (d.update t).2 ≠ Direction.none →
        (d.update t).1.lastRepeatTime = t
        ∧ (d.update t).1.hasRepeated = true
        ∧ (d.update t).2 = d.heldDirection)
    ∧ (∀ (d : DirectionalInput) (t : Int),
        d.isHeld = false →
        d.update t
          = ({ d with lastRepeatTime := t, hasRepeated := false },
              Direction.none))
    ∧ (∀ (d : DirectionalInput) (b : VirtualButton),
        (d.setHeld b false).2 = true →
        (d.setHeld b false).1.hasRepeated = false) := by
  refine ⟨?_, ?_, ?_, ?_, ?_⟩
  · intro d0 b t0 t h0 hb
    have h1 : (d0.update t0).1
        = { d0 with lastRepeatTime := t0, hasRepeated := false } := by
      rw [update_idle d0 t0 h0]
    rw [h1] at hb ⊢
    have ht := setHeld_true_timing
      { d0 with lastRepeatTime := t0, hasRepeated := false } b
    rw [update_fire_before_first _ t hb ht.1, ht.2.1, ht.2.2]
  · intro d t hheld hrep
    exact update_fire_steady d t hheld hrep
  · intro d t hheld hfire
    by_cases hc : (if d.hasRepeated = false then d.repeatDelay
        else d.repeatInterval) ≤ t - d.lastRepeatTime
    · simp [DirectionalInput.update, hheld, hc]
    · exfalso
      apply hfire
      simp [DirectionalInput.update, hheld, hc]
  · intro d t hidle
    exact update_idle d t hidle
  · intro d b
    cases b <;> simp [DirectionalInput.setHeld]

/-- Witness for C9: with the default 300/50 timing, a hold beginning
after an idle frame at instant 10 fires its first repeat at instant 310;
a held state that already repeated at instant 300 fires again at 350 and
re-stamps the fire time; releasing the direction clears `hasRepeated`. -/
theorem directional_repeat_contract_witness :
    (NewDirectionalInputWithTiming 300 50 0).isHeld = false
    ∧ ((((NewDirectionalInputWithTiming 300 50 0).update 10).1.setHeld
          VirtualButton.up true).1).isHeld = true
    ∧ (((((NewDirectionalInputWithTiming 300 50 0).update 10).1.setHeld
          VirtualButton.up true).1.update 310).2 ≠ Direction.none
        ↔ (300 : Int) ≤ 310 - 10)
    ∧ (((⟨true, false, false, false, 300, 300, 50, true⟩ :
          DirectionalInput).update 350).2 ≠ Direction.none
        ↔ (50 : Int) ≤ 350 - 300)
    ∧ ((⟨true, false, false, false, 300, 300, 50, true⟩ :
          DirectionalInput).update 350).1.lastRepeatTime = 350
    ∧ (((⟨true, false, false, false, 300, 300, 50, true⟩ :
          DirectionalInput).setHeld VirtualButton.up false).1).hasRepeated
        = false :=
  ⟨rfl, rfl,
    directional_repeat_contract.1 (NewDirectionalInputWithTiming 300 50 0)
      VirtualButton.up 10 310 rfl rfl,
    directional_repeat_contract.2.1
      ⟨true, false, false, false, 300, 300, 50, true⟩ 350 rfl rfl,
    (directional_repeat_contract.2.2.1
      ⟨true, false, false, false, 300, 300, 50, true⟩ 350 rfl (by decide)).1,
    directional_repeat_contract.2.2.2.2
      ⟨true, false, false, false, 300, 300, 50, true⟩ VirtualButton.up rfl⟩
